import Mathlib

/-!
Verification of the instruction-set simulator core (src/issgui.py).

The Python source is shallowly embedded: instruction lines are Lean Strings,
processed character-by-character with the same tokenizing steps as the source;
the mutable global CPU state becomes an explicit CPUState value threaded
through every operation; Python exceptions become error results carrying the
state as it stood at the raise point.  Machine values are Int (Python ints),
wrapped with emod 256 exactly where the source applies % 256.
-/

set_option maxHeartbeats 1000000

namespace ISS

/-- Whitespace characters recognized by the tokenizer (Python str.split and
str.strip with no arguments, restricted to the characters that can occur in a
program line). -/
def isWS (c : Char) : Bool := c = ' ' || c = '\t' || c = '\n' || c = '\r'

/-- Drop leading and trailing whitespace (Python str.strip). -/
def trimWS (l : List Char) : List Char :=
  ((l.dropWhile isWS).reverse.dropWhile isWS).reverse

/-- Helper of splitWS, carrying the current token reversed. -/
def splitWSAux : List Char → List Char → List (List Char)
  | [], acc => if acc.isEmpty then [] else [acc.reverse]
  | c :: cs, acc =>
    if isWS c then
      if acc.isEmpty then splitWSAux cs [] else acc.reverse :: splitWSAux cs []
    else splitWSAux cs (c :: acc)

/-- Split on runs of whitespace, dropping empty tokens (Python str.split with
no arguments; leading whitespace is ignored, so stripping first is redundant). -/
def splitWS (l : List Char) : List (List Char) := splitWSAux l []

/-- Helper of splitComma, carrying the current field reversed. -/
def splitCommaAux : List Char → List Char → List (List Char)
  | [], acc => [acc.reverse]
  | c :: cs, acc =>
    if c = ',' then acc.reverse :: splitCommaAux cs [] else splitCommaAux cs (c :: acc)

/-- Split at every comma, keeping empty fields (Python str.split with a
separator argument). -/
def splitComma (l : List Char) : List (List Char) := splitCommaAux l []

/-- Remove the suffix starting at the first semicolon, then the suffix starting
at the first hash (execute_instruction, source lines 68-72). -/
def stripComment (l : List Char) : List Char :=
  (l.takeWhile (fun c => !(c = ';'))).takeWhile (fun c => !(c = '#'))

/-- Python str.strip on a String value. -/
def pyStrip (s : String) : String := String.mk (trimWS s.data)

/-- Value of a list of decimal digits. -/
def digitsToNat (l : List Char) : Nat := l.foldl (fun n c => 10 * n + (c.toNat - 48)) 0

/-- Python int(x) with default base 10: surrounding whitespace, an optional
sign, then one or more decimal digits (leading zeros allowed).  Underscore
separators are not modeled. -/
def parseInt10 (s : String) : Option Int :=
  match trimWS s.data with
  | '-' :: ds => if !ds.isEmpty && ds.all Char.isDigit then some (-(digitsToNat ds : Int)) else none
  | '+' :: ds => if !ds.isEmpty && ds.all Char.isDigit then some ((digitsToNat ds : Int)) else none
  | ds => if !ds.isEmpty && ds.all Char.isDigit then some ((digitsToNat ds : Int)) else none

/-- Value of one hexadecimal digit character. -/
def hexDigitVal (c : Char) : Option Nat :=
  if c.isDigit then some (c.toNat - 48)
  else if 'a' ≤ c && c ≤ 'f' then some (c.toNat - 87)
  else if 'A' ≤ c && c ≤ 'F' then some (c.toNat - 55)
  else none

/-- Digits of an unsigned literal in base b (2, 8, 10 or 16). -/
def digitsInBase (b : Nat) (l : List Char) : Option Nat :=
  if l.isEmpty then none else
  l.foldl (fun acc c =>
    match acc, hexDigitVal c with
    | some a, some d => if d < b then some (b * a + d) else none
    | _, _ => none) (some 0)

/-- Python int(x, 0) on an unsigned literal: integer-literal rules, so 0x, 0o
and 0b prefixes select the base and a decimal literal may not have leading
zeros unless it is entirely zeros.  Underscore separators are not modeled. -/
def parseNatBase0 : List Char → Option Nat
  | '0' :: c :: rest =>
    if c = 'x' || c = 'X' then digitsInBase 16 rest
    else if c = 'o' || c = 'O' then digitsInBase 8 rest
    else if c = 'b' || c = 'B' then digitsInBase 2 rest
    else if (c :: rest).all (fun d => d = '0') then some 0
    else none
  | l => if !l.isEmpty && l.all Char.isDigit then some (digitsToNat l) else none

/-- Python int(x, 0): whitespace, optional sign, then an unsigned literal. -/
def parseIntBase0 (s : String) : Option Int :=
  match trimWS s.data with
  | '-' :: rest => (parseNatBase0 rest).map (fun n => -(n : Int))
  | '+' :: rest => (parseNatBase0 rest).map (fun n => (n : Int))
  | l => (parseNatBase0 l).map (fun n => (n : Int))

/-- Condition flags Z, N, C, V, each stored as a 0/1 integer as in the source
FLAGS dict (source line 16). -/
structure Flags where
  z : Nat
  n : Nat
  c : Nat
  v : Nat
deriving DecidableEq

/-- The simulator CPU state (class CPUState, source lines 7-22).  The
animation_active field is omitted: it is a pure GUI concern. -/
structure CPUState where
  registers : List Int
  memory : List Int
  pc : Int
  ir : String
  mar : Int
  mdr : Int
  flags : Flags
  instruction_history : List String
  current_line : Int
  modified_registers : Finset Nat
  modified_memory : Finset Nat
deriving DecidableEq

/-- The zero state built by CPUState.__init__ (source lines 8-22). -/
def initState : CPUState where
  registers := List.replicate 8 0
  memory := List.replicate 64 0
  pc := 0
  ir := ""
  mar := 0
  mdr := 0
  flags := ⟨0, 0, 0, 0⟩
  instruction_history := []
  current_line := 0
  modified_registers := ∅
  modified_memory := ∅

/-- CPUState.copy (source lines 24-37): every persistent field is copied; the
transient modified sets are left at the fresh empty value of the new object. -/
def CPUState.copy (σ : CPUState) : CPUState :=
  { σ with modified_registers := ∅, modified_memory := ∅ }

/-- CPUState.update_flags (source lines 39-54).  The source computes the N flag
as result & 0x80; on an arbitrary Python int that tests bit 7 of the two's
complement value, which equals 128 ≤ result mod 256. -/
def update_flags (σ : CPUState) (result : Int) (original_result : Option Int) : CPUState :=
  { σ with flags :=
    { z := if result = 0 then 1 else 0
      n := if 128 ≤ result.emod 256 then 1 else 0
      c := match original_result with
           | some o => if 255 < o ∨ o < 0 then 1 else 0
           | none => σ.flags.c
      v := match original_result with
           | some o => if o ≠ result then 1 else 0
           | none => σ.flags.v } }

/-- Tokenize an instruction line: strip comments, then split on whitespace
(execute_instruction, source lines 68-74). -/
def tokensOf (s : String) : List (List Char) := splitWS (stripComment s.data)

/-- Operand list from the tokens after the opcode: rejoin with single spaces,
split on commas, strip each piece (source lines 79-82). -/
def operandsFrom (rest : List (List Char)) : List String :=
  if rest.isEmpty then []
  else (splitComma (List.intercalate [' '] rest)).map (fun l => String.mk (trimWS l))

/-- check_register (source lines 85-91). -/
def check_register (reg_str : String) : Except String Nat :=
  match reg_str.data with
  | 'R' :: rest =>
    if !rest.isEmpty && rest.all Char.isDigit then
      let reg := digitsToNat rest
      if 7 < reg then .error s!"Register {reg_str} out of bounds (0-7)" else .ok reg
    else .error s!"Invalid register: {reg_str}"
  | _ => .error s!"Invalid register: {reg_str}"

/-- check_memory (source lines 93-96). -/
def check_memory (addr : Int) : Except String Int :=
  if addr < 0 ∨ 64 ≤ addr then .error s!"Memory address {addr} out of bounds (0-63)"
  else .ok addr

/-- The arithmetic operation selected inside the ADD/SUB/MUL branches
(source lines 133-141 and 148-153). -/
def pyArith (op : String) (x y : Int) : Int :=
  if op = "ADD" then x + y else if op = "SUB" then x - y else x * y

/-- Intermediate outcome of the opcode dispatch chain of execute_instruction:
err is a raised exception caught by the surrounding try (carrying the state as
it stood at the raise point), taken is an early return from a taken jump, and
fall reaches the trailing IR/PC update (source lines 245-246). -/
inductive StepRes where
  | err (msg : String) (σ : CPUState)
  | taken (σ : CPUState)
  | fall (σ : CPUState)
deriving DecidableEq

/-- The state carried by a StepRes. -/
def StepRes.state : StepRes → CPUState
  | .err _ σ => σ
  | .taken σ => σ
  | .fall σ => σ

/-- The branch selected by the elif chain of execute_instruction.  ADD, SUB
and MUL share one branch in the source (elif op in that list). -/
inductive OpKind where
  | load | store | mov | arith | inc | dec | cmp
  | jmp | jz | jnz | jc | jn | nop | comment | unknown
deriving DecidableEq

/-- The elif-condition sequence of execute_instruction (source lines 98-243)
as a total classifier of the uppercased opcode token. -/
def opKind (op : String) : OpKind :=
  if op = "LOAD" then .load
  else if op = "STORE" then .store
  else if op = "MOV" then .mov
  else if op = "ADD" ∨ op = "SUB" ∨ op = "MUL" then .arith
  else if op = "INC" then .inc
  else if op = "DEC" then .dec
  else if op = "CMP" then .cmp
  else if op = "JMP" then .jmp
  else if op = "JZ" then .jz
  else if op = "JNZ" then .jnz
  else if op = "JC" then .jc
  else if op = "JN" then .jn
  else if op = "NOP" then .nop
  else if op.data.head? = some ';' ∨ op.data.head? = some '#' then .comment
  else .unknown

/-- The if/elif opcode chain of execute_instruction (source lines 98-243),
acting on the state σ in which the transient modified sets are already
cleared.  instrText is the comment-stripped instruction text used by the
taken-jump branches for IR.  Branch selection goes through opKind, which
encodes exactly the source elif conditions in order. -/
def dispatch (op : String) (operands : List String) (instrText : String) (σ : CPUState) : StepRes :=
  match opKind op with
  | .load =>
    match operands with
    | [a, b] =>
      match check_register a with
      | .error m => .err m σ
      | .ok reg =>
        match parseIntBase0 b with
        | none => .err s!"invalid literal for int with base 0: {b}" σ
        | some value =>
          let σ1 := { σ with mar := σ.pc, mdr := value }
          let σ2 := { σ1 with registers := σ1.registers.set reg (value % 256),
                              modified_registers := insert reg σ1.modified_registers }
          .fall (update_flags σ2 (σ2.registers.getD reg 0) none)
    | _ => .err s!"{op} requires 2 operands" σ
  | .store =>
    match operands with
    | [a, b] =>
      match check_register a with
      | .error m => .err m σ
      | .ok reg =>
        match parseInt10 b with
        | none => .err s!"invalid literal for int with base 10: {b}" σ
        | some addrRaw =>
          match check_memory addrRaw with
          | .error m => .err m σ
          | .ok address =>
            let value := σ.registers.getD reg 0 % 256
            .fall { σ with memory := σ.memory.set address.toNat value,
                           mar := address, mdr := value,
                           modified_memory := insert address.toNat σ.modified_memory }
    | _ => .err s!"{op} requires 2 operands" σ
  | .mov =>
    match operands with
    | [a, b] =>
      match check_register a with
      | .error m => .err m σ
      | .ok reg =>
        match check_register b with
        | .error m => .err m σ
        | .ok src =>
          let σ1 := { σ with registers := σ.registers.set reg (σ.registers.getD src 0 % 256),
                             modified_registers := insert reg σ.modified_registers }
          .fall (update_flags σ1 (σ1.registers.getD reg 0) none)
    | _ => .err s!"{op} requires 2 operands" σ
  | .arith =>
    match operands with
    | [a, b] =>
      match check_register a with
      | .error m => .err m σ
      | .ok reg =>
        match check_register b with
        | .error m => .err m σ
        | .ok src =>
          let original := pyArith op (σ.registers.getD reg 0) (σ.registers.getD src 0)
          let σ1 := { σ with registers := σ.registers.set reg (original % 256),
                             modified_registers := insert reg σ.modified_registers }
          .fall (update_flags σ1 (σ1.registers.getD reg 0) (some original))
    | [a, b, c] =>
      match check_register a with
      | .error m => .err m σ
      | .ok dest =>
        match check_register b with
        | .error m => .err m σ
        | .ok src1 =>
          match check_register c with
          | .error m => .err m σ
          | .ok src2 =>
            let original := pyArith op (σ.registers.getD src1 0) (σ.registers.getD src2 0)
            let σ1 := { σ with registers := σ.registers.set dest (original % 256),
                               modified_registers := insert dest σ.modified_registers }
            .fall (update_flags σ1 (σ1.registers.getD dest 0) (some original))
    | _ => .err s!"{op} requires 2 or 3 operands" σ
  | .inc =>
    match operands with
    | [a] =>
      match check_register a with
      | .error m => .err m σ
      | .ok reg =>
        let original := σ.registers.getD reg 0 + 1
        let σ1 := { σ with registers := σ.registers.set reg (original % 256),
                           modified_registers := insert reg σ.modified_registers }
        .fall (update_flags σ1 (σ1.registers.getD reg 0) (some original))
    | _ => .err s!"{op} requires 1 operand" σ
  | .dec =>
    match operands with
    | [a] =>
      match check_register a with
      | .error m => .err m σ
      | .ok reg =>
        let original := σ.registers.getD reg 0 - 1
        let σ1 := { σ with registers := σ.registers.set reg (original % 256),
                           modified_registers := insert reg σ.modified_registers }
        .fall (update_flags σ1 (σ1.registers.getD reg 0) (some original))
    | _ => .err s!"{op} requires 1 operand" σ
  | .cmp =>
    match operands with
    | [a, b] =>
      match check_register a with
      | .error m => .err m σ
      | .ok reg1 =>
        match check_register b with
        | .error m => .err m σ
        | .ok reg2 =>
          let result := σ.registers.getD reg1 0 - σ.registers.getD reg2 0
          .fall (update_flags σ (result % 256) (some result))
    | _ => .err s!"{op} requires 2 operands" σ
  | .jmp =>
    match operands with
    | [a] =>
      match parseInt10 a with
      | none => .err s!"invalid literal for int with base 10: {a}" σ
      | some target => .taken { σ with pc := target, current_line := target, ir := instrText }
    | _ => .err s!"{op} requires 1 operand" σ
  | .jz =>
    match operands with
    | [a] =>
      if σ.flags.z = 1 then
        match parseInt10 a with
        | none => .err s!"invalid literal for int with base 10: {a}" σ
        | some target => .taken { σ with pc := target, current_line := target, ir := instrText }
      else .fall σ
    | _ => .err s!"{op} requires 1 operand" σ
  | .jnz =>
    match operands with
    | [a] =>
      if σ.flags.z = 0 then
        match parseInt10 a with
        | none => .err s!"invalid literal for int with base 10: {a}" σ
        | some target => .taken { σ with pc := target, current_line := target, ir := instrText }
      else .fall σ
    | _ => .err s!"{op} requires 1 operand" σ
  | .jc =>
    match operands with
    | [a] =>
      if σ.flags.c = 1 then
        match parseInt10 a with
        | none => .err s!"invalid literal for int with base 10: {a}" σ
        | some target => .taken { σ with pc := target, current_line := target, ir := instrText }
      else .fall σ
    | _ => .err s!"{op} requires 1 operand" σ
  | .jn =>
    match operands with
    | [a] =>
      if σ.flags.n = 1 then
        match parseInt10 a with
        | none => .err s!"invalid literal for int with base 10: {a}" σ
        | some target => .taken { σ with pc := target, current_line := target, ir := instrText }
      else .fall σ
    | _ => .err s!"{op} requires 1 operand" σ
  | .nop => .fall σ
  | .comment => .fall σ
  | .unknown => .err s!"Unknown instruction: {op}" σ

/-- The state with the transient modified sets cleared, as done at the top of
execute_instruction (source lines 65-66). -/
def clearMods (σ : CPUState) : CPUState :=
  { σ with modified_registers := ∅, modified_memory := ∅ }

/-- execute_instruction (source lines 63-254).  Returns (none, σ) on success
(Python True) and (some message, σ) on a caught exception (Python False after
the messagebox); the returned state is the global cpu_state as left by the
call, including any mutations made before an exception was raised. -/
def execute_instruction (instruction : String) (σ0 : CPUState) : Option String × CPUState :=
  let σ := clearMods σ0
  match tokensOf instruction with
  | [] => (none, σ)
  | t0 :: rest =>
    let op := String.mk (t0.map Char.toUpper)
    let instrText := String.mk (stripComment instruction.data)
    match dispatch op (operandsFrom rest) instrText σ with
    | .err m σe => (some m, σe)
    | .taken σj => (none, σj)
    | .fall σf => (none, { σf with ir := instrText, pc := σf.pc + 1 })

/-- The controller test deciding whether a program line is executed at all:
non-blank after stripping, and not starting with a semicolon or hash
(on_step line 340, on_next line 354, on_verify line 400). -/
def execPred (line : String) : Bool :=
  match trimWS line.data with
  | [] => false
  | c :: _ => !(c = ';') && !(c = '#')

/-- Python list indexing with a possibly negative index, as used by
instructions[cpu_state.current_line] (source line 353): a negative index wraps
from the end.  An index out of range raises IndexError in Python, which would
abort the surrounding callback; that case is modeled by the empty string,
which the loop then skips (the loop guard keeps the index below the length,
so only a current_line below -len could reach it). -/
def pyGet (l : List String) (i : Int) : String :=
  if 0 ≤ i then l.getD i.toNat ""
  else if (-i).toNat ≤ l.length then l.getD (l.length - (-i).toNat) ""
  else ""

/-- Run-all mode: the body of on_step (source lines 338-343) without the GUI
calls.  Every line is visited once in textual order; for an executed line the
stripped text is appended to instruction_history before execution, and the
success flag of execute_instruction is ignored.  The enumerate index is used
only in error messages and is dropped. -/
def on_step_cpu (instructions : List String) (σ : CPUState) : CPUState :=
  instructions.foldl
    (fun σ instruction =>
      if execPred instruction then
        (execute_instruction instruction
          { σ with instruction_history := σ.instruction_history ++ [pyStrip instruction] }).2
      else σ)
    σ

/-- Follow-PC mode: the while loop of on_next (source lines 352-369) without
the GUI calls and the inter-step sleep.  The Nat argument after the state is
the iterations counter; the extra fuel argument makes the recursion structural
(the source loop is not bounded by iterations alone, because the jump-sync
branch continues without incrementing it).  The Bool result is false only when
fuel ran out before the loop finished. -/
def on_next_loop (instructions : List String) : Nat → CPUState → Nat → CPUState × Nat × Bool
  | 0, σ, iterations => (σ, iterations, false)
  | fuel + 1, σ, iterations =>
    if σ.current_line < (instructions.length : Int) ∧ iterations < 1000 then
      let instruction := pyStrip (pyGet instructions σ.current_line)
      if execPred instruction then
        let σh := { σ with instruction_history := σ.instruction_history ++ [instruction] }
        match execute_instruction instruction σh with
        | (some _, σ1) => (σ1, iterations, true)
        | (none, σ1) =>
          if σ1.current_line ≠ σ1.pc then
            on_next_loop instructions fuel { σ1 with current_line := σ1.pc } iterations
          else
            on_next_loop instructions fuel
              { σ1 with current_line := σ1.current_line + 1 } (iterations + 1)
      else
        on_next_loop instructions fuel
          { σ with current_line := σ.current_line + 1 } (iterations + 1)
    else (σ, iterations, true)

/-- on_next from a given CPU state (iterations starts at 0, cap 1000). -/
def on_next_cpu (instructions : List String) (fuel : Nat) (σ : CPUState) : CPUState × Nat × Bool :=
  on_next_loop instructions fuel σ 0

/-- The controller-level mutable globals: cpu_state, state_history, redo_stack
(source lines 56-58).  The two stacks are stored most-recent-first, so a
Python append/pop at the list end is a cons/head here and Python pop(0) on the
oldest entry is dropLast. -/
structure Ctrl where
  cpu : CPUState
  state_history : List CPUState
  redo_stack : List CPUState
deriving DecidableEq

/-- save_state (source lines 329-334): push a copy of the current state, evict
the oldest entry when the stack exceeds 50, clear the redo stack. -/
def save_state (c : Ctrl) : Ctrl :=
  let h := c.cpu.copy :: c.state_history
  { c with state_history := if 50 < h.length then h.dropLast else h, redo_stack := [] }

/-- A mutating controller action: on_step, on_next and on_reset each call
save_state first and then mutate cpu_state; f is that mutation. -/
def mutating (f : CPUState → CPUState) (c : Ctrl) : Ctrl :=
  let c1 := save_state c
  { c1 with cpu := f c1.cpu }

/-- on_reset (source lines 374-378). -/
def on_reset (c : Ctrl) : Ctrl := mutating (fun _ => initState) c

/-- on_undo (source lines 380-385). -/
def on_undo (c : Ctrl) : Ctrl :=
  match c.state_history with
  | [] => c
  | s :: rest => { cpu := s, state_history := rest, redo_stack := c.cpu.copy :: c.redo_stack }

/-- on_redo (source lines 387-392). -/
def on_redo (c : Ctrl) : Ctrl :=
  match c.redo_stack with
  | [] => c
  | s :: rest => { cpu := s, redo_stack := rest, state_history := c.cpu.copy :: c.state_history }

/-- The controller actions that touch cpu_state or the history stacks. -/
inductive Action where
  | act (f : CPUState → CPUState)
  | und
  | red

/-- Apply one controller action. -/
def applyAction : Action → Ctrl → Ctrl
  | .act f => mutating f
  | .und => on_undo
  | .red => on_redo

/-- The opcode list accepted by the verifier (source line 396). -/
def valid_ops : List String :=
  ["LOAD", "STORE", "MOV", "ADD", "SUB", "MUL", "INC", "DEC", "CMP",
   "JMP", "JZ", "JNZ", "JC", "JN", "NOP"]

/-- The per-line checks of on_verify (source lines 399-423) for the line with
0-based index idx.  Errors are returned as (1-based line number, message)
pairs; the source formats the same number into the message string.  Unlike the
engine, the verifier does not strip trailing comments before tokenizing. -/
def verify_line (idx : Nat) (instr : String) : List (Nat × String) :=
  if execPred instr then
    match splitWS instr.data with
    | [] => []
    | t0 :: rest =>
      let op := String.mk (t0.map Char.toUpper)
      if op ∉ valid_ops then [(idx + 1, s!"Invalid operation {op}")]
      else
        let operands := operandsFrom rest
        if op ∈ ["LOAD", "STORE", "CMP", "MOV"] then
          if operands.length ≠ 2 then [(idx + 1, s!"{op} needs 2 operands")] else []
        else if op ∈ ["ADD", "SUB", "MUL"] then
          if operands.length ≠ 2 ∧ operands.length ≠ 3 then
            [(idx + 1, s!"{op} needs 2 or 3 operands")] else []
        else if op ∈ ["INC", "DEC", "JMP", "JZ", "JNZ", "JC", "JN"] then
          if operands.length ≠ 1 then [(idx + 1, s!"{op} needs 1 operand")] else []
        else []
  else []

/-- on_verify (source lines 394-428): fold over all lines, accumulating every
error; never executes anything and never touches the CPU state. -/
def on_verify (instructions : List String) : List (Nat × String) :=
  (instructions.enum).foldl (fun errors p => errors ++ verify_line p.1 p.2) []

/-- The jump target of a taken jump, when the given line is one: the opcode is
a jump, its single operand parses, and for a conditional jump the tested flag
holds in σ.  Derived from the five jump branches of execute_instruction. -/
def takenTarget (s : String) (σ : CPUState) : Option Int :=
  match tokensOf s with
  | [] => none
  | t0 :: rest =>
    match operandsFrom rest with
    | [a] =>
      match opKind (String.mk (t0.map Char.toUpper)) with
      | .jmp => parseInt10 a
      | .jz => if σ.flags.z = 1 then parseInt10 a else none
      | .jnz => if σ.flags.z = 0 then parseInt10 a else none
      | .jc => if σ.flags.c = 1 then parseInt10 a else none
      | .jn => if σ.flags.n = 1 then parseInt10 a else none
      | _ => none
    | _ => none

/-- True unless the line is a jump instruction whose parsed operand is a
negative target. -/
def jumpTargetNonneg (s : String) : Bool :=
  match tokensOf s with
  | [] => true
  | t0 :: rest =>
    match opKind (String.mk (t0.map Char.toUpper)) with
    | .jmp | .jz | .jnz | .jc | .jn =>
      match operandsFrom rest with
      | [a] =>
        match parseInt10 a with
        | some t => decide (0 ≤ t)
        | none => true
      | _ => true
    | _ => true

/-- The program of the Follow-PC loop test: a counting loop that increments R0
until it equals R1 (spec section 8). -/
def progC1 : List String := ["LOAD R0,0", "INC R0", "CMP R0,R1", "JNZ 1"]

/-- The zero state with R1 preset to 5. -/
def startC1 : CPUState := { initState with registers := [0, 5, 0, 0, 0, 0, 0, 0] }

/-- The simulator state at the top of the degenerate Follow-PC cycle, just
after the taken JNZ was followed by the controller increment of current_line:
about to fetch line 2 (CMP) while PC points at line 1. -/
def stA (h : List String) : CPUState :=
  ⟨[1, 5, 0, 0, 0, 0, 0, 0], List.replicate 64 0, 1, "JNZ 1", 0, 0,
    ⟨0, 1, 1, 1⟩, h, 2, ∅, ∅⟩

/-- The simulator state half way around the degenerate Follow-PC cycle: the
CMP at line 2 has executed and current_line moved on to line 3 (JNZ). -/
def stB (h : List String) : CPUState :=
  ⟨[1, 5, 0, 0, 0, 0, 0, 0], List.replicate 64 0, 2, "CMP R0,R1", 0, 0,
    ⟨0, 1, 1, 1⟩, h, 3, ∅, ∅⟩

/-- A run-all test program with a backward jump in the middle. -/
def progC5 : List String := ["LOAD R0,1", "INC R0", "INC R0", "JMP 0", "INC R0"]

end ISS

namespace ISS

theorem dispatch_err_state (op : String) (ops : List String) (it : String) (σ : CPUState)
    (m : String) (σe : CPUState) (h : dispatch op ops it σ = .err m σe) : σe = σ := by
  unfold dispatch at h
  repeat' split at h
  all_goals (cases h <;> rfl)

theorem dispatch_taken_shape (op : String) (ops : List String) (it : String) (σ : CPUState)
    (σj : CPUState) (h : dispatch op ops it σ = .taken σj) :
    ∃ a t, ops = [a] ∧ parseInt10 a = some t ∧
      σj = { σ with pc := t, current_line := t, ir := it } ∧
      (opKind op = .jmp ∨ opKind op = .jz ∨ opKind op = .jnz ∨
        opKind op = .jc ∨ opKind op = .jn) ∧
      (opKind op = .jz → σ.flags.z = 1) ∧ (opKind op = .jnz → σ.flags.z = 0) ∧
      (opKind op = .jc → σ.flags.c = 1) ∧ (opKind op = .jn → σ.flags.n = 1) := by
  unfold dispatch at h
  repeat' split at h
  all_goals (cases h <;>
    exact ⟨_, _, rfl, by assumption, rfl, by simp_all, by simp_all, by simp_all,
      by simp_all, by simp_all⟩)

theorem dispatch_fall_frame (op : String) (ops : List String) (it : String) (σ : CPUState)
    (σf : CPUState) (h : dispatch op ops it σ = .fall σf) :
    σf.pc = σ.pc ∧ σf.current_line = σ.current_line ∧ σf.ir = σ.ir ∧
      σf.instruction_history = σ.instruction_history ∧
      σf.memory.length = σ.memory.length ∧ σf.registers.length = σ.registers.length := by
  unfold dispatch at h
  repeat' split at h
  all_goals (cases h <;> simp [update_flags])

/-- Any failing execution leaves every CPU State component other than the
transient modified sets exactly as it was before the instruction. -/
theorem execute_err_frame (s : String) (σ : CPUState) (m : String) (σ1 : CPUState)
    (h : execute_instruction s σ = (some m, σ1)) :
    σ1.registers = σ.registers ∧ σ1.memory = σ.memory ∧ σ1.pc = σ.pc ∧ σ1.ir = σ.ir ∧
      σ1.mar = σ.mar ∧ σ1.mdr = σ.mdr ∧ σ1.flags = σ.flags ∧
      σ1.instruction_history = σ.instruction_history ∧ σ1.current_line = σ.current_line := by
  unfold execute_instruction at h
  dsimp only at h
  split at h
  · simp at h
  · split at h
    case h_1 me σe heq =>
      have he := dispatch_err_state _ _ _ _ _ _ heq
      have h2 : σ1 = σe := by
        have := congrArg Prod.snd h
        simpa using this.symm
      subst h2
      rw [he]
      exact ⟨rfl, rfl, rfl, rfl, rfl, rfl, rfl, rfl, rfl⟩
    case h_2 => simp at h
    case h_3 => simp at h

/-- execute_instruction never touches the instruction_history field. -/
theorem execute_hist (s : String) (σ : CPUState) :
    (execute_instruction s σ).2.instruction_history = σ.instruction_history := by
  unfold execute_instruction
  dsimp only
  split
  · rfl
  · split
    case h_1 me σe heq =>
      have he := dispatch_err_state _ _ _ _ _ _ heq
      rw [he]
      rfl
    case h_2 σj heq =>
      obtain ⟨a, t, -, -, hj, -⟩ := dispatch_taken_shape _ _ _ _ _ heq
      rw [hj]
      rfl
    case h_3 σf heq =>
      have hf := dispatch_fall_frame _ _ _ _ _ heq
      simpa using hf.2.2.2.1

/-- A line whose takenTarget is defined executes as a taken jump: PC and
current_line are set to the target and IR to the comment-stripped text, with
no trailing PC increment; nothing else changes besides the cleared modified
sets. -/
theorem execute_taken (s : String) (σ0 : CPUState) (t : Int)
    (h : takenTarget s σ0 = some t) :
    execute_instruction s σ0 =
      (none, { clearMods σ0 with pc := t, current_line := t,
                                 ir := String.mk (stripComment s.data) }) := by
  unfold takenTarget at h
  repeat' split at h
  all_goals first
    | (cases h)
    | (simp only [execute_instruction, dispatch, clearMods] at *
       simp_all)

/-- A successful execution of a non-blank line that is not a taken jump ends
with the trailing update: IR gets the comment-stripped text and PC moves up by
exactly one, while current_line is untouched. -/
theorem execute_fall_shape (s : String) (σ0 σ1 : CPUState)
    (hnt : takenTarget s σ0 = none) (hne : tokensOf s ≠ [])
    (h : execute_instruction s σ0 = (none, σ1)) :
    σ1.ir = String.mk (stripComment s.data) ∧ σ1.pc = σ0.pc + 1 ∧
      σ1.current_line = σ0.current_line := by
  unfold execute_instruction at h
  dsimp only at h
  split at h
  · exact absurd (by assumption) hne
  · rename_i t0 rest heqT
    split at h
    case h_1 => simp at h
    case h_2 σj heqd =>
      obtain ⟨a, t, hops, hparse, hσj, hdisj, hz, hnz, hc, hn⟩ :=
        dispatch_taken_shape _ _ _ _ _ heqd
      exfalso
      unfold takenTarget at hnt
      rw [heqT] at hnt
      dsimp only at hnt
      rw [hops] at hnt
      rcases hdisj with hk | hk | hk | hk | hk <;>
        simp only [hk, clearMods] at hnt hz hnz hc hn <;>
        simp_all
    case h_3 σf heqd =>
      have hf := dispatch_fall_frame _ _ _ _ _ heqd
      have h2 : σ1 = { σf with ir := String.mk (stripComment s.data), pc := σf.pc + 1 } := by
        have := congrArg Prod.snd h
        simpa using this.symm
      subst h2
      refine ⟨rfl, ?_, ?_⟩
      · simpa [clearMods] using congrArg (· + (1:Int)) hf.1
      · simpa [clearMods] using hf.2.1

/-- One engine step keeps PC non-negative as long as the line is not a jump
with a negative literal target. -/
theorem execute_pc_nonneg (s : String) (σ0 : CPUState)
    (hj : jumpTargetNonneg s = true) (hp : 0 ≤ σ0.pc) :
    0 ≤ (execute_instruction s σ0).2.pc := by
  unfold execute_instruction
  dsimp only
  split
  · exact hp
  · rename_i t0 rest heqT
    split
    case h_1 me σe heqd =>
      rw [dispatch_err_state _ _ _ _ _ _ heqd]
      exact hp
    case h_2 σj heqd =>
      obtain ⟨a, t, hops, hparse, hσj, hdisj, -, -, -, -⟩ :=
        dispatch_taken_shape _ _ _ _ _ heqd
      unfold jumpTargetNonneg at hj
      rw [heqT] at hj
      dsimp only at hj
      rw [hσj]
      rcases hdisj with hk | hk | hk | hk | hk <;>
        simp only [hk, hops, hparse] at hj <;>
        simpa using hj
    case h_3 σf heqd =>
      have hf := dispatch_fall_frame _ _ _ _ _ heqd
      have : σf.pc = σ0.pc := by simpa [clearMods] using hf.1
      simp [this]
      omega

end ISS

namespace ISS

/-- C2: every failing execution (unknown opcode, wrong operand count, register
token out of [0,7], memory address out of [0,63], malformed numeric literal)
reports failure and leaves registers, memory, PC, IR, MAR, MDR and flags
exactly as they were; in particular STORE R8,5 fails with the register
out-of-bounds message and changes nothing. -/
theorem C2_error_leaves_state_unchanged :
    (∀ (s : String) (σ : CPUState) (m : String) (σ1 : CPUState),
        execute_instruction s σ = (some m, σ1) →
        σ1.registers = σ.registers ∧ σ1.memory = σ.memory ∧ σ1.pc = σ.pc ∧
          σ1.ir = σ.ir ∧ σ1.mar = σ.mar ∧ σ1.mdr = σ.mdr ∧ σ1.flags = σ.flags) ∧
    (∀ σ : CPUState,
        (execute_instruction "STORE R8,5" σ).1 = some "Register R8 out of bounds (0-7)" ∧
        (execute_instruction "STORE R8,5" σ).2.registers = σ.registers ∧
        (execute_instruction "STORE R8,5" σ).2.memory = σ.memory ∧
        (execute_instruction "STORE R8,5" σ).2.pc = σ.pc ∧
        (execute_instruction "STORE R8,5" σ).2.ir = σ.ir ∧
        (execute_instruction "STORE R8,5" σ).2.mar = σ.mar ∧
        (execute_instruction "STORE R8,5" σ).2.mdr = σ.mdr ∧
        (execute_instruction "STORE R8,5" σ).2.flags = σ.flags) := by
  constructor
  · intro s σ m σ1 h
    have := execute_err_frame s σ m σ1 h
    tauto
  · intro σ
    exact ⟨rfl, rfl, rfl, rfl, rfl, rfl, rfl, rfl⟩

theorem C2_witness :
    (execute_instruction "STORE R8,5" initState).1 = some "Register R8 out of bounds (0-7)" ∧
      (execute_instruction "STORE R8,5" initState).2.pc = initState.pc ∧
      (execute_instruction "STORE R8,5" initState).2.registers = initState.registers :=
  ⟨(C2_error_leaves_state_unchanged.2 initState).1,
    (C2_error_leaves_state_unchanged.1 "STORE R8,5" initState
      "Register R8 out of bounds (0-7)" (execute_instruction "STORE R8,5" initState).2
      (by rfl)).2.2.1,
    (C2_error_leaves_state_unchanged.1 "STORE R8,5" initState
      "Register R8 out of bounds (0-7)" (execute_instruction "STORE R8,5" initState).2
      (by rfl)).1⟩

/-- C10: a line that is empty, whitespace-only, or empty after comment
stripping executes successfully and leaves the whole CPU State unchanged
except that the transient modified sets are cleared; PC and IR are untouched. -/
theorem C10_blank_line_noop :
    ∀ (s : String) (σ : CPUState), tokensOf s = [] →
      execute_instruction s σ = (none, clearMods σ) ∧
      (execute_instruction s σ).2.registers = σ.registers ∧
      (execute_instruction s σ).2.memory = σ.memory ∧
      (execute_instruction s σ).2.pc = σ.pc ∧
      (execute_instruction s σ).2.ir = σ.ir ∧
      (execute_instruction s σ).2.mar = σ.mar ∧
      (execute_instruction s σ).2.mdr = σ.mdr ∧
      (execute_instruction s σ).2.flags = σ.flags ∧
      (execute_instruction s σ).2.instruction_history = σ.instruction_history ∧
      (execute_instruction s σ).2.current_line = σ.current_line ∧
      (execute_instruction s σ).2.modified_registers = ∅ ∧
      (execute_instruction s σ).2.modified_memory = ∅ := by
  intro s σ h
  have hx : execute_instruction s σ = (none, clearMods σ) := by
    unfold execute_instruction
    dsimp only
    rw [h]
  rw [hx]
  exact ⟨rfl, rfl, rfl, rfl, rfl, rfl, rfl, rfl, rfl, rfl, rfl, rfl⟩

theorem C10_witness :
    execute_instruction "   ; just a comment" initState = (none, clearMods initState) ∧
      (execute_instruction "   ; just a comment" initState).2.pc = initState.pc :=
  ⟨(C10_blank_line_noop "   ; just a comment" initState (by decide)).1,
    (C10_blank_line_noop "   ; just a comment" initState (by decide)).2.2.2.1⟩

/-- C3: a taken jump (JMP, or a conditional jump whose flag test holds) sets
PC and current_line to the parsed target with no additional PC increment; any
other successfully executed non-blank line ends with IR set to the
comment-stripped instruction text and PC incremented by exactly one; JZ 3 with
Z = 0 falls through to PC + 1. -/
theorem C3_jump_and_fallthrough :
    (∀ (s : String) (σ : CPUState),
      (∀ t : Int, takenTarget s σ = some t →
        (execute_instruction s σ).1 = none ∧
        (execute_instruction s σ).2.pc = t ∧
        (execute_instruction s σ).2.current_line = t ∧
        (execute_instruction s σ).2.ir = String.mk (stripComment s.data)) ∧
      (takenTarget s σ = none → tokensOf s ≠ [] →
        ∀ σ1, execute_instruction s σ = (none, σ1) →
          σ1.ir = String.mk (stripComment s.data) ∧ σ1.pc = σ.pc + 1)) ∧
    (∀ σ : CPUState, σ.flags.z = 0 →
      (execute_instruction "JZ 3" σ).1 = none ∧
      (execute_instruction "JZ 3" σ).2.pc = σ.pc + 1) := by
  constructor
  · intro s σ
    constructor
    · intro t h
      rw [execute_taken s σ t h]
      exact ⟨rfl, rfl, rfl, rfl⟩
    · intro hnt hne σ1 h
      have := execute_fall_shape s σ σ1 hnt hne h
      exact ⟨this.1, this.2.1⟩
  · rintro ⟨regs, mem, pc, ir, mar, mdr, ⟨z, n, c, v⟩, hist, cl, mr, mm⟩ hz
    dsimp only at hz
    subst hz
    exact ⟨rfl, rfl⟩

theorem C3_witness :
    (execute_instruction "JMP 4" initState).2.pc = 4 ∧
      (execute_instruction "JMP 4" initState).2.current_line = 4 ∧
      (execute_instruction "JZ 3" initState).2.pc = 1 :=
  ⟨((C3_jump_and_fallthrough.1 "JMP 4" initState).1 4 (by decide)).2.1,
    ((C3_jump_and_fallthrough.1 "JMP 4" initState).1 4 (by decide)).2.2.1,
    by simpa using (C3_jump_and_fallthrough.2 initState rfl).2⟩

end ISS

namespace ISS

theorem getD_set_self (l : List Int) (i : Nat) (x : Int) (h : i < l.length) :
    (l.set i x).getD i 0 = x := by
  simp [List.getD, List.getElem?_set_self', h]

theorem pyGet_cases (l : List String) (i : Int) : pyGet l i ∈ l ∨ pyGet l i = "" := by
  unfold pyGet
  split
  · rcases Nat.lt_or_ge i.toNat l.length with hlt | hge
    · left
      rw [List.getD_eq_getElem?_getD, List.getElem?_eq_getElem hlt]
      exact List.getElem_mem hlt
    · right
      rw [List.getD_eq_getElem?_getD, List.getElem?_eq_none hge]
      rfl
  · split
    · rcases Nat.lt_or_ge (l.length - (-i).toNat) l.length with hlt | hge
      · left
        rw [List.getD_eq_getElem?_getD, List.getElem?_eq_getElem hlt]
        exact List.getElem_mem hlt
      · right
        rw [List.getD_eq_getElem?_getD, List.getElem?_eq_none hge]
        rfl
    · right
      rfl

theorem on_next_loop_pc_nonneg (lines : List String)
    (hall : ∀ l ∈ lines, jumpTargetNonneg (pyStrip l) = true) :
    ∀ (fuel : Nat) (σ : CPUState) (it : Nat), 0 ≤ σ.pc →
      0 ≤ (on_next_loop lines fuel σ it).1.pc := by
  intro fuel
  induction fuel with
  | zero => intro σ it h; exact h
  | succ f ih =>
    intro σ it h
    rw [on_next_loop]
    split
    · dsimp only
      split
      · rename_i hcond hpred
        have hline : jumpTargetNonneg (pyStrip (pyGet lines σ.current_line)) = true := by
          rcases pyGet_cases lines σ.current_line with hm | hm
          · exact hall _ hm
          · rw [hm]; rfl
        split
        case h_1 m σ1 heq =>
          have := execute_pc_nonneg (pyStrip (pyGet lines σ.current_line))
            { σ with instruction_history :=
                σ.instruction_history ++ [pyStrip (pyGet lines σ.current_line)] }
            hline (by simpa using h)
          rw [heq] at this
          exact this
        case h_2 σ1 heq =>
          have hpc : 0 ≤ σ1.pc := by
            have := execute_pc_nonneg (pyStrip (pyGet lines σ.current_line))
              { σ with instruction_history :=
                  σ.instruction_history ++ [pyStrip (pyGet lines σ.current_line)] }
              hline (by simpa using h)
            rw [heq] at this
            exact this
          split
          · exact ih _ _ (by simpa using hpc)
          · exact ih _ _ (by simpa using hpc)
      · exact ih _ _ (by simpa using h)
    · exact h

theorem on_step_cpu_pc_nonneg (lines : List String)
    (hall : ∀ l ∈ lines, jumpTargetNonneg l = true) (σ : CPUState) (h : 0 ≤ σ.pc) :
    0 ≤ (on_step_cpu lines σ).pc := by
  unfold on_step_cpu
  induction lines generalizing σ with
  | nil => exact h
  | cons a as ih =>
    simp only [List.foldl_cons]
    apply ih
    · intro l hl
      exact hall l (List.mem_cons_of_mem a hl)
    · split
      · have := execute_pc_nonneg a
          { σ with instruction_history := σ.instruction_history ++ [pyStrip a] }
          (hall a (List.mem_cons_self a as)) (by simpa using h)
        exact this
      · exact h

end ISS
namespace ISS

/-- C8 counterexample: executing JMP -1 from the initial zero state drives PC
to -1, so PC is not always non-negative. -/
theorem C8_counterexample : (execute_instruction "JMP -1" initState).2.pc < 0 := by decide

/-- C8 amended: PC stays non-negative under every engine step and under both
run modes, provided no executed jump instruction carries a negative literal
target; a jump with a negative target (e.g. JMP -1) does set PC negative. -/
theorem C8_pc_nonneg_without_negative_targets :
    (∀ (s : String) (σ : CPUState), jumpTargetNonneg s = true → 0 ≤ σ.pc →
        0 ≤ (execute_instruction s σ).2.pc) ∧
    (∀ (lines : List String), (∀ l ∈ lines, jumpTargetNonneg (pyStrip l) = true) →
        ∀ (fuel : Nat) (σ : CPUState) (it : Nat), 0 ≤ σ.pc →
          0 ≤ (on_next_loop lines fuel σ it).1.pc) ∧
    (∀ (lines : List String), (∀ l ∈ lines, jumpTargetNonneg l = true) →
        ∀ σ : CPUState, 0 ≤ σ.pc → 0 ≤ (on_step_cpu lines σ).pc) :=
  ⟨execute_pc_nonneg, on_next_loop_pc_nonneg,
    fun lines h σ hp => on_step_cpu_pc_nonneg lines h σ hp⟩

theorem C8_witness :
    jumpTargetNonneg "JMP 3" = true ∧ (0:Int) ≤ initState.pc ∧
      0 ≤ (execute_instruction "JMP 3" initState).2.pc :=
  ⟨by decide, by decide,
    C8_pc_nonneg_without_negative_targets.1 "JMP 3" initState (by decide) (by decide)⟩

end ISS

namespace ISS

theorem on_step_trace (lines : List String) (σ : CPUState) :
    (on_step_cpu lines σ).instruction_history =
      σ.instruction_history ++ (lines.filter (fun l => execPred l)).map pyStrip := by
  unfold on_step_cpu
  induction lines generalizing σ with
  | nil => simp
  | cons a as ih =>
    simp only [List.foldl_cons, List.filter_cons]
    by_cases hp : execPred a
    · simp only [hp, if_true, if_pos]
      rw [ih]
      rw [execute_hist]
      simp
    · simp only [hp, if_false]
      rw [ih]
      simp [hp]

/-- C5: run-all mode executes exactly the non-blank, non-comment lines, each
once, in textual top-to-bottom order (the instruction history records them in
that order), regardless of jumps; on the test program the JMP 0 at line 3 is
followed by line 4 and line 0 is never re-executed, while the jump still
updated PC (final PC is 1 = 0 + 1 after the final INC). -/
theorem C5_run_all_textual_order :
    (∀ (lines : List String) (σ : CPUState),
        (on_step_cpu lines σ).instruction_history =
          σ.instruction_history ++ (lines.filter (fun l => execPred l)).map pyStrip) ∧
    (on_step_cpu progC5 initState).instruction_history =
      ["LOAD R0,1", "INC R0", "INC R0", "JMP 0", "INC R0"] ∧
    (on_step_cpu progC5 initState).registers.getD 0 0 = 4 ∧
    (on_step_cpu progC5 initState).pc = 1 := by
  refine ⟨on_step_trace, ?_, ?_, ?_⟩ <;> decide

end ISS

namespace ISS

theorem on_verify_eq_flatten (lines : List String) :
    on_verify lines = (lines.enum.map (fun p => verify_line p.1 p.2)).flatten := by
  unfold on_verify
  have H : ∀ (xs : List (Nat × String)) (acc : List (Nat × String)),
      xs.foldl (fun errors p => errors ++ verify_line p.1 p.2) acc =
        acc ++ (xs.map (fun p => verify_line p.1 p.2)).flatten := by
    intro xs
    induction xs with
    | nil => intro acc; simp
    | cons x xs ih => intro acc; simp [ih, List.append_assoc]
  simpa using H lines.enum []

theorem verify_line_skip (i : Nat) (l : String) (h : execPred l = false) :
    verify_line i l = [] := by
  unfold verify_line
  simp [h]

theorem verify_line_number (i : Nat) (l : String) (e : Nat × String)
    (he : e ∈ verify_line i l) : e.1 = i + 1 := by
  unfold verify_line at he
  dsimp only at he
  repeat' split at he
  all_goals simp only [List.mem_nil_iff, List.mem_singleton] at he
  all_goals (subst he; rfl)

/-- C9 counterexample: the one-line program STORE R8,5 contains a register
range error (the engine rejects the line with the out-of-bounds message), yet
the verifier reports no errors at all; hence the verifier does not return
every RangeError. -/
theorem C9_counterexample :
    on_verify ["STORE R8,5"] = [] ∧
      (execute_instruction "STORE R8,5" initState).1 =
        some "Register R8 out of bounds (0-7)" := by decide

/-- C9 amended: the verifier checks only opcode validity and operand counts;
it aggregates exactly those errors across all lines (each line contributes
independently, so it never stops at the first error), tags every error with
the 1-based line number, and skips blank and comment-only lines; it is a pure
function of the program text, so it cannot mutate the CPU state.  Range
errors and malformed-token errors are not detected. -/
theorem C9_verifier_aggregates_arity_errors :
    (∀ lines : List String,
        on_verify lines = (lines.enum.map (fun p => verify_line p.1 p.2)).flatten) ∧
    (∀ (i : Nat) (l : String), execPred l = false → verify_line i l = []) ∧
    (∀ (i : Nat) (l : String) (e : Nat × String), e ∈ verify_line i l → e.1 = i + 1) ∧
    on_verify ["LOAD R0", "", "XYZ 1", "; c", "ADD R1,R2,R3,R4"] =
      [(1, "LOAD needs 2 operands"), (3, "Invalid operation XYZ"),
       (5, "ADD needs 2 or 3 operands")] :=
  ⟨on_verify_eq_flatten, verify_line_skip, verify_line_number, by decide⟩

theorem C9_witness :
    verify_line 3 "  ; comment" = [] ∧
      on_verify ["STORE R8,5"] =
        (["STORE R8,5"].enum.map (fun p => verify_line p.1 p.2)).flatten :=
  ⟨C9_verifier_aggregates_arity_errors.2.1 3 "  ; comment" (by decide),
    C9_verifier_aggregates_arity_errors.1 ["STORE R8,5"]⟩

end ISS
namespace ISS

/-- The save_state eviction always keeps the newly pushed snapshot at the top. -/
theorem evict_cons (x : CPUState) (l : List CPUState) :
    ∃ l2, (if 50 < (x :: l).length then (x :: l).dropLast else x :: l) = x :: l2 := by
  split
  · rename_i h
    rcases l with _ | ⟨y, ys⟩
    · simp at h
    · exact ⟨_, rfl⟩
  · exact ⟨l, rfl⟩

/-- C6 counterexample: execute LOAD R0,5 (so the transient modified-register
set is {0}), then reset (a mutating action), then undo.  The restored state is
not bit-for-bit the pre-reset state, because the snapshot was taken with
copy(), which drops the modified sets. -/
theorem C6_counterexample :
    (on_undo (on_reset { cpu := (execute_instruction "LOAD R0,5" initState).2,
                         state_history := [], redo_stack := [] })).cpu ≠
      (execute_instruction "LOAD R0,5" initState).2 := by decide

/-- C6 amended: after any mutating action, undo restores every persistent
field of the pre-action CPU state (exactly its copy(), which resets the
transient modified sets to empty instead of restoring them), and an
immediately following redo restores the copy of the post-action state; the
stacks jointly never hold more than 50 entries under any action (hence the
undo stack never exceeds 50, as from the initial empty stacks the bound is
preserved), a mutating action pushes the new snapshot on top and evicts only
the oldest entry when full, and clears the redo stack, while undo pushes one
redo entry and redo pops one, never clearing. -/
theorem C6_undo_redo_history :
    (∀ (f : CPUState → CPUState) (c : Ctrl),
        (on_undo (mutating f c)).cpu = c.cpu.copy ∧
        (on_redo (on_undo (mutating f c))).cpu = (f c.cpu).copy) ∧
    (∀ c : Ctrl, c.state_history.length + c.redo_stack.length ≤ 50 →
        ∀ a : Action,
          (applyAction a c).state_history.length + (applyAction a c).redo_stack.length ≤ 50 ∧
          (applyAction a c).state_history.length ≤ 50) ∧
    (∀ (f : CPUState → CPUState) (c : Ctrl),
        (mutating f c).redo_stack = [] ∧
        (c.state_history.length ≤ 49 →
          (mutating f c).state_history = c.cpu.copy :: c.state_history) ∧
        (49 < c.state_history.length →
          (mutating f c).state_history = (c.cpu.copy :: c.state_history).dropLast)) ∧
    (∀ c : Ctrl, c.state_history ≠ [] →
        (on_undo c).redo_stack = c.cpu.copy :: c.redo_stack) ∧
    (∀ (c : Ctrl) (s : CPUState) (rest : List CPUState), c.redo_stack = s :: rest →
        (on_redo c).redo_stack = rest) := by
  refine ⟨?_, ?_, ?_, ?_, ?_⟩
  · intro f c
    obtain ⟨l2, hl2⟩ := evict_cons c.cpu.copy c.state_history
    unfold mutating save_state
    dsimp only
    rw [hl2]
    exact ⟨rfl, rfl⟩
  · intro c hc a
    cases a with
    | act f =>
      unfold applyAction mutating save_state
      dsimp only
      split
      · rename_i h
        simp only [List.length_cons] at h
        simp only [List.length_dropLast, List.length_cons, List.length_nil]
        omega
      · rename_i h
        simp only [List.length_cons] at h ⊢
        simp only [List.length_nil]
        omega
    | und =>
      unfold applyAction on_undo
      dsimp only
      split
      · exact ⟨hc, by omega⟩
      · rename_i s rest heq
        have hlen := congrArg List.length heq
        simp only [List.length_cons] at hlen
        simp only [List.length_cons]
        omega
    | red =>
      unfold applyAction on_redo
      dsimp only
      split
      · exact ⟨hc, by omega⟩
      · rename_i s rest heq
        have hlen := congrArg List.length heq
        simp only [List.length_cons] at hlen
        simp only [List.length_cons]
        omega
  · intro f c
    refine ⟨rfl, ?_, ?_⟩
    · intro hlen
      unfold mutating save_state
      dsimp only
      split
      · rename_i h
        simp only [List.length_cons] at h
        omega
      · rfl
    · intro hlen
      unfold mutating save_state
      dsimp only
      split
      · rfl
      · rename_i h
        simp only [List.length_cons] at h
        omega
  · intro c hc
    unfold on_undo
    rcases hx : c.state_history with _ | ⟨x, xs⟩
    · exact absurd hx hc
    · rfl
  · intro c s rest hc
    unfold on_redo
    rw [hc]

theorem C6_witness :
    (on_undo (mutating (fun _ => initState)
        { cpu := initState, state_history := [], redo_stack := [] })).cpu = initState.copy ∧
      (mutating (fun _ => initState)
        { cpu := initState, state_history := [], redo_stack := [] }).redo_stack = [] :=
  ⟨(C6_undo_redo_history.1 (fun _ => initState)
      { cpu := initState, state_history := [], redo_stack := [] }).1,
    (C6_undo_redo_history.2.2.1 (fun _ => initState)
      { cpu := initState, state_history := [], redo_stack := [] }).1⟩

end ISS
namespace ISS

theorem check_register_bound {a : String} {r : Nat} (h : check_register a = .ok r) :
    r ≤ 7 := by
  unfold check_register at h
  dsimp only at h
  repeat' split at h
  all_goals (try cases h)
  all_goals omega

/-- Unfolding of execute_instruction on a line with at least one token. -/
theorem execute_cons (s : String) (σ0 : CPUState) (t0 : List Char) (rest : List (List Char))
    (heq : tokensOf s = t0 :: rest) :
    execute_instruction s σ0 =
      (match dispatch (String.mk (t0.map Char.toUpper)) (operandsFrom rest)
          (String.mk (stripComment s.data)) (clearMods σ0) with
        | .err m σe => (some m, σe)
        | .taken σj => (none, σj)
        | .fall σf => (none, { σf with ir := String.mk (stripComment s.data),
                                       pc := σf.pc + 1 })) := by
  unfold execute_instruction
  dsimp only
  rw [heq]

/-- C7: LOAD reg,imm sets MAR to the current PC, MDR to the un-wrapped
immediate, and the register to the immediate mod 256; concretely LOAD R0,300
leaves R0 = 44 while MDR = 300 and MAR = PC. -/
theorem C7_load_semantics :
    (∀ (a b it : String) (σ : CPUState) (r : Nat) (v : Int),
        check_register a = .ok r → parseIntBase0 b = some v → σ.registers.length = 8 →
        ∃ σf, dispatch "LOAD" [a, b] it σ = .fall σf ∧
          σf.mar = σ.pc ∧ σf.mdr = v ∧ σf.registers.getD r 0 = v % 256) ∧
    (execute_instruction "LOAD R0,300" initState).1 = none ∧
    (execute_instruction "LOAD R0,300" initState).2.registers.getD 0 0 = 44 ∧
    (execute_instruction "LOAD R0,300" initState).2.mdr = 300 ∧
    (execute_instruction "LOAD R0,300" initState).2.mar = initState.pc := by
  refine ⟨?_, by decide, by decide, by decide, by decide⟩
  intro a b it σ r v hca hpb hlen
  unfold dispatch
  rw [show opKind "LOAD" = OpKind.load from rfl]
  dsimp only
  rw [hca, hpb]
  dsimp only [update_flags]
  refine ⟨_, rfl, rfl, rfl, ?_⟩
  have hr := check_register_bound hca
  exact getD_set_self _ r _ (by omega)

theorem C7_witness :
    check_register "R3" = .ok 3 ∧ parseIntBase0 "300" = some 300 ∧
      ∃ σf, dispatch "LOAD" ["R3", "300"] "LOAD R3,300" initState = .fall σf ∧
        σf.mar = initState.pc ∧ σf.mdr = 300 ∧ σf.registers.getD 3 0 = 44 :=
  ⟨rfl, rfl, by
    obtain ⟨σf, h1, h2, h3, h4⟩ := C7_load_semantics.1 "R3" "300" "LOAD R3,300"
      initState 3 300 rfl rfl (by decide)
    exact ⟨σf, h1, h2, h3, h4.trans (by decide)⟩⟩

end ISS
namespace ISS

theorem dispatch_LOAD_fall_cv (ops : List String) (it : String) (σ σf : CPUState)
    (h : dispatch "LOAD" ops it σ = .fall σf) :
    σf.flags.c = σ.flags.c ∧ σf.flags.v = σ.flags.v := by
  unfold dispatch at h
  rw [show opKind "LOAD" = OpKind.load from rfl] at h
  dsimp only at h
  repeat' split at h
  all_goals (cases h <;> simp [update_flags])

theorem dispatch_STORE_fall_cv (ops : List String) (it : String) (σ σf : CPUState)
    (h : dispatch "STORE" ops it σ = .fall σf) :
    σf.flags.c = σ.flags.c ∧ σf.flags.v = σ.flags.v := by
  unfold dispatch at h
  rw [show opKind "STORE" = OpKind.store from rfl] at h
  dsimp only at h
  repeat' split at h
  all_goals (cases h <;> simp [update_flags])

theorem dispatch_MOV_fall_cv (ops : List String) (it : String) (σ σf : CPUState)
    (h : dispatch "MOV" ops it σ = .fall σf) :
    σf.flags.c = σ.flags.c ∧ σf.flags.v = σ.flags.v := by
  unfold dispatch at h
  rw [show opKind "MOV" = OpKind.mov from rfl] at h
  dsimp only at h
  repeat' split at h
  all_goals (cases h <;> simp [update_flags])

theorem dispatch_arith2 (op a b it : String) (σ : CPUState) (r s' : Nat)
    (hop : op = "ADD" ∨ op = "SUB" ∨ op = "MUL")
    (hca : check_register a = .ok r) (hcb : check_register b = .ok s')
    (hlen : σ.registers.length = 8) :
    ∃ σf, dispatch op [a, b] it σ = .fall σf ∧
      σf.registers.getD r 0 =
        pyArith op (σ.registers.getD r 0) (σ.registers.getD s' 0) % 256 ∧
      σf.flags.c = (if 255 < pyArith op (σ.registers.getD r 0) (σ.registers.getD s' 0) ∨
          pyArith op (σ.registers.getD r 0) (σ.registers.getD s' 0) < 0 then 1 else 0) ∧
      σf.flags.v = (if pyArith op (σ.registers.getD r 0) (σ.registers.getD s' 0) ≠
          pyArith op (σ.registers.getD r 0) (σ.registers.getD s' 0) % 256 then 1 else 0) := by
  have hbound := check_register_bound hca
  have hk : opKind op = OpKind.arith := by rcases hop with rfl | rfl | rfl <;> rfl
  unfold dispatch
  rw [hk]
  dsimp only
  rw [hca, hcb]
  dsimp only [update_flags]
  refine ⟨_, rfl, ?_, rfl, ?_⟩
  · exact getD_set_self _ r _ (by omega)
  · rw [getD_set_self _ r _ (by omega)]

theorem dispatch_arith3 (op a b c it : String) (σ : CPUState) (d s1 s2 : Nat)
    (hop : op = "ADD" ∨ op = "SUB" ∨ op = "MUL")
    (hca : check_register a = .ok d) (hcb : check_register b = .ok s1)
    (hcc : check_register c = .ok s2) (hlen : σ.registers.length = 8) :
    ∃ σf, dispatch op [a, b, c] it σ = .fall σf ∧
      σf.registers.getD d 0 =
        pyArith op (σ.registers.getD s1 0) (σ.registers.getD s2 0) % 256 ∧
      σf.flags.c = (if 255 < pyArith op (σ.registers.getD s1 0) (σ.registers.getD s2 0) ∨
          pyArith op (σ.registers.getD s1 0) (σ.registers.getD s2 0) < 0 then 1 else 0) ∧
      σf.flags.v = (if pyArith op (σ.registers.getD s1 0) (σ.registers.getD s2 0) ≠
          pyArith op (σ.registers.getD s1 0) (σ.registers.getD s2 0) % 256 then 1 else 0) := by
  have hbound := check_register_bound hca
  have hk : opKind op = OpKind.arith := by rcases hop with rfl | rfl | rfl <;> rfl
  unfold dispatch
  rw [hk]
  dsimp only
  rw [hca, hcb, hcc]
  dsimp only [update_flags]
  refine ⟨_, rfl, ?_, rfl, ?_⟩
  · exact getD_set_self _ d _ (by omega)
  · rw [getD_set_self _ d _ (by omega)]

theorem dispatch_INC (a it : String) (σ : CPUState) (r : Nat)
    (hca : check_register a = .ok r) (hlen : σ.registers.length = 8) :
    ∃ σf, dispatch "INC" [a] it σ = .fall σf ∧
      σf.registers.getD r 0 = (σ.registers.getD r 0 + 1) % 256 ∧
      σf.flags.c = (if 255 < σ.registers.getD r 0 + 1 ∨
          σ.registers.getD r 0 + 1 < 0 then 1 else 0) ∧
      σf.flags.v = (if σ.registers.getD r 0 + 1 ≠
          (σ.registers.getD r 0 + 1) % 256 then 1 else 0) := by
  have hbound := check_register_bound hca
  unfold dispatch
  rw [show opKind "INC" = OpKind.inc from rfl]
  dsimp only
  rw [hca]
  dsimp only [update_flags]
  refine ⟨_, rfl, ?_, rfl, ?_⟩
  · exact getD_set_self _ r _ (by omega)
  · rw [getD_set_self _ r _ (by omega)]

theorem dispatch_DEC (a it : String) (σ : CPUState) (r : Nat)
    (hca : check_register a = .ok r) (hlen : σ.registers.length = 8) :
    ∃ σf, dispatch "DEC" [a] it σ = .fall σf ∧
      σf.registers.getD r 0 = (σ.registers.getD r 0 - 1) % 256 ∧
      σf.flags.c = (if 255 < σ.registers.getD r 0 - 1 ∨
          σ.registers.getD r 0 - 1 < 0 then 1 else 0) ∧
      σf.flags.v = (if σ.registers.getD r 0 - 1 ≠
          (σ.registers.getD r 0 - 1) % 256 then 1 else 0) := by
  have hbound := check_register_bound hca
  unfold dispatch
  rw [show opKind "DEC" = OpKind.dec from rfl]
  dsimp only
  rw [hca]
  dsimp only [update_flags]
  refine ⟨_, rfl, ?_, rfl, ?_⟩
  · exact getD_set_self _ r _ (by omega)
  · rw [getD_set_self _ r _ (by omega)]

theorem dispatch_CMP (a b it : String) (σ : CPUState) (r1 r2 : Nat)
    (hca : check_register a = .ok r1) (hcb : check_register b = .ok r2) :
    ∃ σf, dispatch "CMP" [a, b] it σ = .fall σf ∧
      σf.registers = σ.registers ∧
      σf.flags.c = (if 255 < σ.registers.getD r1 0 - σ.registers.getD r2 0 ∨
          σ.registers.getD r1 0 - σ.registers.getD r2 0 < 0 then 1 else 0) ∧
      σf.flags.v = (if σ.registers.getD r1 0 - σ.registers.getD r2 0 ≠
          (σ.registers.getD r1 0 - σ.registers.getD r2 0) % 256 then 1 else 0) := by
  unfold dispatch
  rw [show opKind "CMP" = OpKind.cmp from rfl]
  dsimp only
  rw [hca, hcb]
  dsimp only [update_flags]
  exact ⟨_, rfl, rfl, rfl, rfl⟩

end ISS
namespace ISS

/-- C4: LOAD, STORE and MOV never change the C and V flags; every
arithmetic-class operation (ADD/SUB/MUL in both arities, INC, DEC, CMP)
recomputes them, with C = 1 iff the pre-wrap result exceeds 255 or is
negative and V = 1 iff the pre-wrap result differs from the wrapped result;
consequently ADD on 8-bit register values x, y stores (x+y) mod 256 with
C = 1 iff x+y > 255, and DEC of a register holding 0 yields 255 with C = 1. -/
theorem C4_flag_update_asymmetry :
    (∀ (ops : List String) (it : String) (σ σf : CPUState),
        dispatch "LOAD" ops it σ = .fall σf →
        σf.flags.c = σ.flags.c ∧ σf.flags.v = σ.flags.v) ∧
    (∀ (ops : List String) (it : String) (σ σf : CPUState),
        dispatch "STORE" ops it σ = .fall σf →
        σf.flags.c = σ.flags.c ∧ σf.flags.v = σ.flags.v) ∧
    (∀ (ops : List String) (it : String) (σ σf : CPUState),
        dispatch "MOV" ops it σ = .fall σf →
        σf.flags.c = σ.flags.c ∧ σf.flags.v = σ.flags.v) ∧
    (∀ (op a b it : String) (σ : CPUState) (r s' : Nat),
        (op = "ADD" ∨ op = "SUB" ∨ op = "MUL") →
        check_register a = .ok r → check_register b = .ok s' →
        σ.registers.length = 8 →
        ∃ σf, dispatch op [a, b] it σ = .fall σf ∧
          σf.registers.getD r 0 =
            pyArith op (σ.registers.getD r 0) (σ.registers.getD s' 0) % 256 ∧
          σf.flags.c = (if 255 < pyArith op (σ.registers.getD r 0) (σ.registers.getD s' 0) ∨
              pyArith op (σ.registers.getD r 0) (σ.registers.getD s' 0) < 0 then 1 else 0) ∧
          σf.flags.v = (if pyArith op (σ.registers.getD r 0) (σ.registers.getD s' 0) ≠
              pyArith op (σ.registers.getD r 0) (σ.registers.getD s' 0) % 256
            then 1 else 0)) ∧
    (∀ (op a b c it : String) (σ : CPUState) (d s1 s2 : Nat),
        (op = "ADD" ∨ op = "SUB" ∨ op = "MUL") →
        check_register a = .ok d → check_register b = .ok s1 →
        check_register c = .ok s2 → σ.registers.length = 8 →
        ∃ σf, dispatch op [a, b, c] it σ = .fall σf ∧
          σf.registers.getD d 0 =
            pyArith op (σ.registers.getD s1 0) (σ.registers.getD s2 0) % 256 ∧
          σf.flags.c = (if 255 < pyArith op (σ.registers.getD s1 0) (σ.registers.getD s2 0) ∨
              pyArith op (σ.registers.getD s1 0) (σ.registers.getD s2 0) < 0 then 1 else 0) ∧
          σf.flags.v = (if pyArith op (σ.registers.getD s1 0) (σ.registers.getD s2 0) ≠
              pyArith op (σ.registers.getD s1 0) (σ.registers.getD s2 0) % 256
            then 1 else 0)) ∧
    (∀ (a it : String) (σ : CPUState) (r : Nat),
        check_register a = .ok r → σ.registers.length = 8 →
        ∃ σf, dispatch "INC" [a] it σ = .fall σf ∧
          σf.registers.getD r 0 = (σ.registers.getD r 0 + 1) % 256 ∧
          σf.flags.c = (if 255 < σ.registers.getD r 0 + 1 ∨
              σ.registers.getD r 0 + 1 < 0 then 1 else 0) ∧
          σf.flags.v = (if σ.registers.getD r 0 + 1 ≠
              (σ.registers.getD r 0 + 1) % 256 then 1 else 0)) ∧
    (∀ (a it : String) (σ : CPUState) (r : Nat),
        check_register a = .ok r → σ.registers.length = 8 →
        ∃ σf, dispatch "DEC" [a] it σ = .fall σf ∧
          σf.registers.getD r 0 = (σ.registers.getD r 0 - 1) % 256 ∧
          σf.flags.c = (if 255 < σ.registers.getD r 0 - 1 ∨
              σ.registers.getD r 0 - 1 < 0 then 1 else 0) ∧
          σf.flags.v = (if σ.registers.getD r 0 - 1 ≠
              (σ.registers.getD r 0 - 1) % 256 then 1 else 0)) ∧
    (∀ (a b it : String) (σ : CPUState) (r1 r2 : Nat),
        check_register a = .ok r1 → check_register b = .ok r2 →
        ∃ σf, dispatch "CMP" [a, b] it σ = .fall σf ∧
          σf.registers = σ.registers ∧
          σf.flags.c = (if 255 < σ.registers.getD r1 0 - σ.registers.getD r2 0 ∨
              σ.registers.getD r1 0 - σ.registers.getD r2 0 < 0 then 1 else 0) ∧
          σf.flags.v = (if σ.registers.getD r1 0 - σ.registers.getD r2 0 ≠
              (σ.registers.getD r1 0 - σ.registers.getD r2 0) % 256 then 1 else 0)) ∧
    (∀ (a b it : String) (σ : CPUState) (r s' : Nat) (x y : Int),
        check_register a = .ok r → check_register b = .ok s' →
        σ.registers.length = 8 →
        σ.registers.getD r 0 = x → σ.registers.getD s' 0 = y →
        0 ≤ x → x ≤ 255 → 0 ≤ y → y ≤ 255 →
        ∃ σf, dispatch "ADD" [a, b] it σ = .fall σf ∧
          σf.registers.getD r 0 = (x + y) % 256 ∧ (σf.flags.c = 1 ↔ 255 < x + y)) ∧
    (∀ σ : CPUState, σ.registers.length = 8 → σ.registers.getD 0 0 = 0 →
        (execute_instruction "DEC R0" σ).1 = none ∧
        (execute_instruction "DEC R0" σ).2.registers.getD 0 0 = 255 ∧
        (execute_instruction "DEC R0" σ).2.flags.c = 1) := by
  refine ⟨dispatch_LOAD_fall_cv, dispatch_STORE_fall_cv, dispatch_MOV_fall_cv,
    dispatch_arith2, dispatch_arith3, dispatch_INC, dispatch_DEC, dispatch_CMP, ?_, ?_⟩
  · intro a b it σ r s' x y hca hcb hlen hx hy hx0 hx255 hy0 hy255
    obtain ⟨σf, hd, hreg, hcf, hv⟩ :=
      dispatch_arith2 "ADD" a b it σ r s' (Or.inl rfl) hca hcb hlen
    refine ⟨σf, hd, ?_, ?_⟩
    · rw [hreg, hx, hy]
      rfl
    · rw [hcf, hx, hy]
      show (if 255 < x + y ∨ x + y < 0 then (1 : Nat) else 0) = 1 ↔ 255 < x + y
      split_ifs with h1 <;> simp <;> omega
  · intro σ hlen h0
    obtain ⟨σf, hd, hreg, hcf, hv⟩ := dispatch_DEC "R0" "DEC R0" (clearMods σ) 0 rfl hlen
    have hreg0 : (clearMods σ).registers.getD 0 0 = 0 := h0
    rw [execute_cons "DEC R0" σ ['D', 'E', 'C'] [['R', '0']] rfl]
    rw [show String.mk (List.map Char.toUpper ['D', 'E', 'C']) = "DEC" from rfl,
        show operandsFrom [['R', '0']] = ["R0"] from rfl,
        show String.mk (stripComment ("DEC R0").data) = "DEC R0" from rfl]
    rw [hd]
    dsimp only
    refine ⟨rfl, ?_, ?_⟩
    · rw [hreg, hreg0]
      decide
    · rw [hcf, hreg0]
      decide

theorem C4_witness :
    (execute_instruction "DEC R0" initState).2.registers.getD 0 0 = 255 ∧
      (execute_instruction "DEC R0" initState).2.flags.c = 1 ∧
      initState.registers.length = 8 ∧ initState.registers.getD 0 0 = 0 :=
  ⟨(C4_flag_update_asymmetry.2.2.2.2.2.2.2.2.2 initState (by decide) (by decide)).2.1,
    (C4_flag_update_asymmetry.2.2.2.2.2.2.2.2.2 initState (by decide) (by decide)).2.2,
    by decide, by decide⟩

end ISS
namespace ISS

theorem exec_CMP_cycle (h' : List String) :
    execute_instruction "CMP R0,R1"
      ⟨[1, 5, 0, 0, 0, 0, 0, 0], List.replicate 64 0, 1, "JNZ 1", 0, 0,
        ⟨0, 1, 1, 1⟩, h', 2, ∅, ∅⟩ =
    (none, ⟨[1, 5, 0, 0, 0, 0, 0, 0], List.replicate 64 0, 2, "CMP R0,R1", 0, 0,
        ⟨0, 1, 1, 1⟩, h', 2, ∅, ∅⟩) := rfl

theorem exec_JNZ_cycle (h' : List String) :
    execute_instruction "JNZ 1"
      ⟨[1, 5, 0, 0, 0, 0, 0, 0], List.replicate 64 0, 2, "CMP R0,R1", 0, 0,
        ⟨0, 1, 1, 1⟩, h', 3, ∅, ∅⟩ =
    (none, ⟨[1, 5, 0, 0, 0, 0, 0, 0], List.replicate 64 0, 1, "JNZ 1", 0, 0,
        ⟨0, 1, 1, 1⟩, h', 1, ∅, ∅⟩) := rfl

theorem stepTerminalA (f : Nat) (h : List String) :
    on_next_loop progC1 (f + 1) (stA h) 1000 = (stA h, 1000, true) := rfl

theorem stepTerminalB (f : Nat) (h : List String) :
    on_next_loop progC1 (f + 1) (stB h) 1000 = (stB h, 1000, true) := rfl

end ISS
namespace ISS

theorem stepA (f it : Nat) (h : List String) (hit : it < 1000) :
    on_next_loop progC1 (f + 1) (stA h) it =
      on_next_loop progC1 f (stB (h ++ ["CMP R0,R1"])) (it + 1) := by
  rw [on_next_loop]
  rw [if_pos (show (stA h).current_line < (progC1.length : Int) ∧ it < 1000 from
        ⟨by norm_num [stA, progC1], hit⟩)]
  dsimp only [stA, stB]
  rw [show pyStrip (pyGet progC1 2) = "CMP R0,R1" from rfl]
  rw [if_pos (show execPred "CMP R0,R1" = true from rfl)]
  rw [exec_CMP_cycle (h ++ ["CMP R0,R1"])]
  dsimp only
  rw [if_neg (show ¬((2 : Int) ≠ (2 : Int)) from by decide)]
  norm_num

theorem stepB (f it : Nat) (h : List String) (hit : it < 1000) :
    on_next_loop progC1 (f + 1) (stB h) it =
      on_next_loop progC1 f (stA (h ++ ["JNZ 1"])) (it + 1) := by
  rw [on_next_loop]
  rw [if_pos (show (stB h).current_line < (progC1.length : Int) ∧ it < 1000 from
        ⟨by norm_num [stB, progC1], hit⟩)]
  dsimp only [stA, stB]
  rw [show pyStrip (pyGet progC1 3) = "JNZ 1" from rfl]
  rw [if_pos (show execPred "JNZ 1" = true from rfl)]
  rw [exec_JNZ_cycle (h ++ ["JNZ 1"])]
  dsimp only
  rw [if_neg (show ¬((1 : Int) ≠ (1 : Int)) from by decide)]
  norm_num

end ISS
namespace ISS

theorem loop_cycle : ∀ (n it : Nat), it + n = 1000 → ∀ (f : Nat) (h : List String), n + 1 ≤ f →
    ((on_next_loop progC1 f (stA h) it).1.registers = [1, 5, 0, 0, 0, 0, 0, 0] ∧
     (on_next_loop progC1 f (stA h) it).2.1 = 1000 ∧
     (on_next_loop progC1 f (stA h) it).2.2 = true) ∧
    ((on_next_loop progC1 f (stB h) it).1.registers = [1, 5, 0, 0, 0, 0, 0, 0] ∧
     (on_next_loop progC1 f (stB h) it).2.1 = 1000 ∧
     (on_next_loop progC1 f (stB h) it).2.2 = true) := by
  intro n
  induction n with
  | zero =>
    intro it hit f h hf
    obtain ⟨f1, rfl⟩ : ∃ f1, f = f1 + 1 := ⟨f - 1, by omega⟩
    have h1000 : it = 1000 := by omega
    subst h1000
    rw [stepTerminalA, stepTerminalB]
    exact ⟨⟨rfl, rfl, rfl⟩, ⟨rfl, rfl, rfl⟩⟩
  | succ k ih =>
    intro it hit f h hf
    obtain ⟨f1, rfl⟩ : ∃ f1, f = f1 + 1 := ⟨f - 1, by omega⟩
    constructor
    · rw [stepA f1 it h (by omega)]
      exact (ih (it + 1) (by omega) f1 (h ++ ["CMP R0,R1"]) (by omega)).2
    · rw [stepB f1 it h (by omega)]
      exact (ih (it + 1) (by omega) f1 (h ++ ["JNZ 1"]) (by omega)).1

theorem prefix4 (f : Nat) :
    on_next_loop progC1 (f + 4) startC1 0 =
      on_next_loop progC1 f (stA ["LOAD R0,0", "INC R0", "CMP R0,R1", "JNZ 1"]) 1 := rfl

/-- C1: the claim fails on the code.  Under Follow-PC mode with R1 = 5, the
program LOAD R0,0 / INC R0 / CMP R0,R1 / JNZ 1 does not terminate after 5 loop
iterations with R0 = 5: execute_instruction pre-sets current_line for a taken
jump, so the controller test current_line != PC misses taken jumps and the
loop resumes at the line after the jump target; the run degenerates into a
CMP/JNZ cycle, R0 stays 1, and the 1000-iteration cap is hit (iterations =
1000 and the loop reports via the cap, with R0 = 1, not 5). -/
theorem C1_follow_pc_hits_iteration_cap :
    ∀ fuel : Nat,
      (on_next_loop progC1 (fuel + 1004) startC1 0).2.1 = 1000 ∧
      (on_next_loop progC1 (fuel + 1004) startC1 0).2.2 = true ∧
      (on_next_loop progC1 (fuel + 1004) startC1 0).1.registers = [1, 5, 0, 0, 0, 0, 0, 0] := by
  intro fuel
  have e : fuel + 1004 = (fuel + 1000) + 4 := by omega
  rw [e, prefix4 (fuel + 1000)]
  have h := (loop_cycle 999 1 (by norm_num) (fuel + 1000)
    ["LOAD R0,0", "INC R0", "CMP R0,R1", "JNZ 1"] (by omega)).1
  exact ⟨h.2.1, h.2.2, h.1⟩

end ISS
